import Mathlib

/-!
ParcelStore (parcel.go): a shallow embedding.

The store of `parcel.go` is a thin layer over one SQL table.  Every method
sends one SQL statement to the connection and turns the driver's answer into
Go return values.  The embedding keeps that shape:

* the table `parcel` is a list of rows (in storage order) together with the
  AUTOINCREMENT counter of the table;
* each SQL statement of `parcel.go` is one call of a small statement executor
  (`execInsert`, `execUpdate`, `execDelete`, `query`) whose `WHERE` clause is a
  Boolean function on rows, written as in the statement text;
* the places where the driver may report a failure are made explicit by a
  record of injected faults, so that every `if err != nil` branch of the source
  is reachable in the model;
* a Go result `(v, err)` is a pair whose second component is `Option Error`
  (`none` is Go's `nil` error).

Go's `int` is taken to be 64 bits wide, so `int(id)` in `Add` is the identity
on the row ids the engine can hand out (at most `2^63 - 1`).
-/

namespace ParcelStore

/-! ## Data model -/

/-- Modelled from the spec: the `Parcel` entity, whose type declaration is not
in `parcel.go`.  Field order is the column order `number, client, status,
address, created_at`. -/
structure Parcel where
  Number : Int
  Client : Int
  Status : String
  Address : String
  CreatedAt : String
deriving DecidableEq, Repr

/-- The Go zero value `Parcel{}`. -/
def Parcel.zero : Parcel := ⟨0, 0, "", "", ""⟩

/-- Modelled from the spec: the status constant `registered`, declared outside
`parcel.go`. -/
def ParcelStatusRegistered : String := "registered"

/-- Modelled from the spec: the status constant `delivered`, declared outside
`parcel.go`. -/
def ParcelStatusDelivered : String := "delivered"

/-- Go `error` values seen by the store.  `ErrNoRows` is the sentinel
`sql.ErrNoRows`; `driver m` is a failure reported by the driver or the engine;
`errorf m` is the fresh error built by `fmt.Errorf` (with `%v` or `%s`, so it
carries only the formatted text). -/
inductive Error where
  | ErrNoRows
  | driver (m : String)
  | errorf (m : String)
deriving DecidableEq, Repr

/-- The text of an error, Go's `err.Error()`. -/
def Error.msg : Error → String
  | .ErrNoRows => "sql: no rows in result set"
  | .driver m => m
  | .errorf m => m

/-- Failures injected into one call of the store, one field for each point at
which `database/sql` can hand an error back:
`exec` for `db.Exec` / `db.Query` / `db.QueryRow`, `lastInsertId` for
`result.LastInsertId`, `scan` for `Scan` of a fetched row, `rowsErr` for the
error found when the iteration stops (`rows.Err`), `close` for closing the
single-row result inside `Row.Scan`. -/
structure Faults where
  exec : Option Error
  lastInsertId : Option Error
  scan : Option Error
  rowsErr : Option Error
  close : Option Error
deriving DecidableEq, Repr

/-- A call during which nothing fails. -/
def noFaults : Faults := ⟨none, none, none, none, none⟩

/-- A call during which the statement itself fails to execute with `e`. -/
def execFails (e : Error) : Faults := ⟨some e, none, none, none, none⟩

/-- Modelled from the spec: the persisted table
`parcel(number INTEGER PRIMARY KEY AUTOINCREMENT, client INTEGER, status TEXT,
address TEXT, created_at TEXT)`, which is created outside `parcel.go`.
`rows` are the stored rows, `seq` is the AUTOINCREMENT counter: the largest
key handed out so far (0 for a fresh table). -/
structure DB where
  rows : List Parcel
  seq : Nat
deriving DecidableEq, Repr

/-- The table right after its creation. -/
def DB.empty : DB := ⟨[], 0⟩

/-- The PRIMARY KEY constraint on `number`: no two rows share a Number. -/
def DB.UniqueNumbers (db : DB) : Prop := (db.rows.map Parcel.Number).Nodup

instance (db : DB) : Decidable db.UniqueNumbers := by
  unfold DB.UniqueNumbers; infer_instance

/-! ## The SQL engine -/

/-- The largest row id of the engine, `2^63 - 1`. -/
def maxRowid : Int := 9223372036854775807

/-- The largest key in use: the maximum of the AUTOINCREMENT counter and of
the Numbers of the stored rows. -/
def DB.lastKey (db : DB) : Int :=
  db.rows.foldl (fun m r => max m r.Number) (db.seq : Int)

/-- Modelled from the spec: `INSERT INTO parcel (client, status, address,
created_at) VALUES (...)` on the AUTOINCREMENT table.  The new key is one more
than the largest key in use; when that key is already the largest row id the
engine refuses the insert.  Returns the last-inserted id and the new table. -/
def execInsert (f : Faults) (db : DB) (client : Int) (status address created_at : String) :
    Except Error (Int × DB) :=
  match f.exec with
  | some e => .error e
  | none =>
    if maxRowid ≤ db.lastKey then
      .error (.driver "database or disk is full (13)")
    else
      let id := db.lastKey + 1
      .ok (id, ⟨db.rows ++ [⟨id, client, status, address, created_at⟩], id.toNat⟩)

/-- The statement `UPDATE parcel SET ... WHERE whr`: every row satisfying the
`WHERE` clause is replaced by `set row`; the others are kept. -/
def execUpdate (f : Faults) (db : DB) (set : Parcel → Parcel) (whr : Parcel → Bool) :
    Except Error DB :=
  match f.exec with
  | some e => .error e
  | none => .ok ⟨db.rows.map (fun r => if whr r then set r else r), db.seq⟩

/-- The statement `DELETE FROM parcel WHERE whr`: every row satisfying the
`WHERE` clause is removed.  The AUTOINCREMENT counter is kept. -/
def execDelete (f : Faults) (db : DB) (whr : Parcel → Bool) : Except Error DB :=
  match f.exec with
  | some e => .error e
  | none => .ok ⟨db.rows.filter (fun r => !whr r), db.seq⟩

/-- The statement `SELECT * FROM parcel WHERE whr`: the rows satisfying the
`WHERE` clause. -/
def query (f : Faults) (db : DB) (whr : Parcel → Bool) : Except Error (List Parcel) :=
  match f.exec with
  | some e => .error e
  | none => .ok (db.rows.filter whr)

/-- The method `(*sql.Row).Scan` applied to the answer of `QueryRow`: a failed
query gives its error; an empty answer gives the iteration error if there is
one and `sql.ErrNoRows` otherwise; else the first row is scanned and the
result closed. -/
def rowScan (f : Faults) : Except Error (List Parcel) → Except Error Parcel
  | .error e => .error e
  | .ok [] =>
    match f.rowsErr with
    | some e => .error e
    | none => .error .ErrNoRows
  | .ok (r :: _) =>
    match f.scan with
    | some e => .error e
    | none =>
      match f.close with
      | some e => .error e
      | none => .ok r

/-! ## The store -/

/-- The method `ParcelStore.Add` (parcel.go, lines 18-35). -/
def Add (f : Faults) (db : DB) (p : Parcel) : (Int × Option Error) × DB :=
  match execInsert f db p.Client p.Status p.Address p.CreatedAt with
  | .error err => ((0, some err), db)
  | .ok (id, db') =>
    match f.lastInsertId with
    | some err => ((0, some err), db')
    | none => ((id, none), db')

/-- The method `ParcelStore.Get` (parcel.go, lines 37-49):
`SELECT * FROM parcel WHERE number = :number`. -/
def Get (f : Faults) (db : DB) (number : Int) : Parcel × Option Error :=
  match rowScan f (query f db (fun r => r.Number == number)) with
  | .error err => (Parcel.zero, some err)
  | .ok p => (p, none)

/-- The loop `for rows.Next() { ... rows.Scan ...; res = append(res, p) }` of
`GetByClient`, over the rows still to be fetched. -/
def scanLoop (f : Faults) : List Parcel → List Parcel → Except Error (List Parcel)
  | [], res => .ok res
  | r :: rest, res =>
    match f.scan with
    | some err => .error err
    | none => scanLoop f rest (res ++ [r])

/-- The method `ParcelStore.GetByClient` (parcel.go, lines 51-79):
`SELECT * FROM parcel WHERE client = :client`. -/
def GetByClient (f : Faults) (db : DB) (client : Int) : List Parcel × Option Error :=
  match query f db (fun r => r.Client == client) with
  | .error err =>
    ([], some (.errorf ("GetByClient: no data with client id " ++ toString client
      ++ ": " ++ err.msg)))
  | .ok rows =>
    match scanLoop f rows [] with
    | .error err => ([], some err)
    | .ok res =>
      match f.rowsErr with
      | some err => ([], some err)
      | none => (res, none)

/-- The method `ParcelStore.SetStatus` (parcel.go, lines 81-91):
`UPDATE parcel SET status = :status WHERE number = number`.  The `WHERE`
clause compares the column `number` with itself; the bound argument `number`
does not occur in the statement. -/
def SetStatus (f : Faults) (db : DB) (number : Int) (status : String) : Option Error × DB :=
  let _ := number
  match execUpdate f db (fun r => { r with Status := status })
      (fun r => r.Number == r.Number) with
  | .error err => (some (.errorf ("SetStatus error: " ++ err.msg)), db)
  | .ok db' => (none, db')

/-- The method `ParcelStore.SetAddress` (parcel.go, lines 93-105):
`UPDATE parcel SET address = :address WHERE number = :number AND status = :status`
with `:status` bound to `ParcelStatusRegistered`. -/
def SetAddress (f : Faults) (db : DB) (number : Int) (address : String) : Option Error × DB :=
  match execUpdate f db (fun r => { r with Address := address })
      (fun r => r.Number == number && r.Status == ParcelStatusRegistered) with
  | .error err => (some (.errorf ("SetAddress error: " ++ err.msg)), db)
  | .ok db' => (none, db')

/-- The method `ParcelStore.Delete` (parcel.go, lines 107-117):
`DELETE FROM parcel WHERE number = :number and status = :status`
with `:status` bound to `ParcelStatusRegistered`. -/
def Delete (f : Faults) (db : DB) (number : Int) : Option Error × DB :=
  match execDelete f db
      (fun r => r.Number == number && r.Status == ParcelStatusRegistered) with
  | .error err => (some (.errorf ("Delete error: " ++ err.msg)), db)
  | .ok db' => (none, db')

/-! ## Sequences of calls -/

/-- One mutating call of the store with its arguments. -/
inductive Call where
  | Add (p : Parcel)
  | SetStatus (number : Int) (status : String)
  | SetAddress (number : Int) (address : String)
  | Delete (number : Int)
deriving DecidableEq, Repr

/-- The table after one call made under the faults `f`. -/
def Call.run (f : Faults) (db : DB) : Call → DB
  | .Add p => (ParcelStore.Add f db p).2
  | .SetStatus n s => (ParcelStore.SetStatus f db n s).2
  | .SetAddress n a => (ParcelStore.SetAddress f db n a).2
  | .Delete n => (ParcelStore.Delete f db n).2

/-- The table after a sequence of calls, each made under its own faults. -/
def runCalls (db : DB) (calls : List (Faults × Call)) : DB :=
  calls.foldl (fun d c => c.2.run c.1 d) db

/-! ## Sample data -/

/-- The parcel of the test suite (`getTestParcel`) with a fixed timestamp. -/
def testParcel : Parcel := ⟨0, 1000, "registered", "test", "2024-01-01T00:00:00Z"⟩

/-- A table with two rows of two clients: row 1 is registered, row 2 is
delivered. -/
def sampleDB : DB :=
  ⟨[⟨1, 1000, "registered", "test", "2024-01-01T00:00:00Z"⟩,
    ⟨2, 2000, "delivered", "home", "2024-01-02T00:00:00Z"⟩], 2⟩

/-- The sample table after the test parcel was added to it. -/
def sampleDBAdded : DB :=
  ⟨[⟨1, 1000, "registered", "test", "2024-01-01T00:00:00Z"⟩,
    ⟨2, 2000, "delivered", "home", "2024-01-02T00:00:00Z"⟩,
    ⟨3, 1000, "registered", "test", "2024-01-01T00:00:00Z"⟩], 3⟩

/-! ## Auxiliary facts about the engine -/

theorem foldl_max_bounds (l : List Parcel) (m : Int) :
    m ≤ l.foldl (fun m r => max m r.Number) m ∧
      ∀ r ∈ l, r.Number ≤ l.foldl (fun m r => max m r.Number) m := by
  induction l generalizing m with
  | nil => simp
  | cons a l ih =>
    simp only [List.foldl_cons, List.mem_cons]
    obtain ⟨h1, h2⟩ := ih (max m a.Number)
    refine ⟨le_trans (le_max_left _ _) h1, ?_⟩
    rintro r (rfl | hr)
    · exact le_trans (le_max_right _ _) h1
    · exact h2 r hr

theorem seq_le_lastKey (db : DB) : (db.seq : Int) ≤ db.lastKey :=
  (foldl_max_bounds db.rows db.seq).1

theorem number_le_lastKey (db : DB) {r : Parcel} (h : r ∈ db.rows) :
    r.Number ≤ db.lastKey :=
  (foldl_max_bounds db.rows db.seq).2 r h

/-- What a successful `Add` did: the key is one more than the largest key in
use and the table got exactly one new row, placed last. -/
theorem Add_ok {f : Faults} {db db' : DB} {p : Parcel} {N : Int}
    (h : Add f db p = ((N, none), db')) :
    N = db.lastKey + 1 ∧
      db'.rows = db.rows ++ [⟨N, p.Client, p.Status, p.Address, p.CreatedAt⟩] := by
  unfold Add execInsert at h
  split at h
  · simp at h
  · rename_i id d heq
    split at heq
    · simp at heq
    · split at heq
      · simp at heq
      · simp only [Except.ok.injEq, Prod.mk.injEq] at heq
        obtain ⟨hid, hd⟩ := heq
        split at h
        · simp at h
        · simp only [Prod.mk.injEq, and_true] at h
          obtain ⟨hN, hdb⟩ := h
          subst hN hdb hid
          subst hd
          exact ⟨rfl, rfl⟩

/-- The table of any `Add`, successful or not, is the old table or the old
table with one row of a fresh key appended. -/
theorem Add_rows (f : Faults) (db : DB) (p : Parcel) :
    (Add f db p).2 = db ∨
      (Add f db p).2.rows =
        db.rows ++ [⟨db.lastKey + 1, p.Client, p.Status, p.Address, p.CreatedAt⟩] := by
  unfold Add execInsert
  cases f.exec with
  | some e => left; rfl
  | none =>
    by_cases hfull : maxRowid ≤ db.lastKey
    · left; simp [hfull]
    · right
      cases f.lastInsertId <;> simp [hfull]

/-- Without faults `Get` looks at the rows carrying the requested Number. -/
theorem Get_noFaults (db : DB) (n : Int) :
    Get noFaults db n =
      match db.rows.filter (fun r => r.Number == n) with
      | [] => (Parcel.zero, some .ErrNoRows)
      | r :: _ => (r, none) := by
  unfold Get query rowScan noFaults
  simp only
  cases db.rows.filter (fun r => r.Number == n) <;> rfl

/-- Under the primary key, the rows carrying the Number of a stored row are
that row alone. -/
theorem filter_number_of_unique (l : List Parcel) (r : Parcel)
    (hu : (l.map Parcel.Number).Nodup) (hr : r ∈ l) :
    l.filter (fun x => x.Number == r.Number) = [r] := by
  induction l with
  | nil => simp at hr
  | cons a l ih =>
    simp only [List.map_cons, List.nodup_cons, List.mem_map, not_exists, not_and] at hu
    obtain ⟨ha, hl⟩ := hu
    rcases List.mem_cons.1 hr with rfl | hr'
    · have : l.filter (fun x => x.Number == r.Number) = [] := by
        rw [List.filter_eq_nil_iff]
        intro x hx
        simpa using ha x hx
      simp [List.filter_cons, this]
    · have hne : ¬ a.Number = r.Number := fun h => ha r hr' h.symm
      simp [List.filter_cons, hne, ih hl hr']

/-- Under the primary key a Number names at most one stored row. -/
theorem eq_of_number_eq {l : List Parcel} {x r : Parcel}
    (hu : (l.map Parcel.Number).Nodup) (hx : x ∈ l) (hr : r ∈ l)
    (h : x.Number = r.Number) : x = r := by
  have hmem : x ∈ l.filter (fun y => y.Number == r.Number) := by
    simp [List.mem_filter, hx, h]
  rw [filter_number_of_unique l r hu hr] at hmem
  simpa using hmem

/-- An update that keeps the Numbers commutes with the selection by Number. -/
theorem filter_number_map (l : List Parcel) (g : Parcel → Parcel)
    (hg : ∀ x, (g x).Number = x.Number) (n : Int) :
    (l.map g).filter (fun x => x.Number == n) =
      (l.filter (fun x => x.Number == n)).map g := by
  induction l with
  | nil => rfl
  | cons a l ih =>
    by_cases h : a.Number = n
    · simp [List.filter_cons, hg, h, ih]
    · simp [List.filter_cons, hg, h, ih]

/-- With no scan failure the fetch loop appends every fetched row, in order. -/
theorem scanLoop_ok (f : Faults) (hf : f.scan = none) (rows res : List Parcel) :
    scanLoop f rows res = .ok (res ++ rows) := by
  induction rows generalizing res with
  | nil => simp [scanLoop]
  | cons a rows ih => simp [scanLoop, hf, ih]

/-- Without faults `GetByClient` returns the rows of the client, in storage
order. -/
theorem GetByClient_noFaults (db : DB) (C : Int) :
    GetByClient noFaults db C = (db.rows.filter (fun r => r.Client == C), none) := by
  unfold GetByClient query
  simp [noFaults, scanLoop_ok]

/-- A successful `Add` returns a key that no stored row carried. -/
theorem Add_fresh (f : Faults) (db : DB) (p : Parcel)
    (h : (Add f db p).1.2 = none) :
    ∀ r ∈ db.rows, r.Number ≠ (Add f db p).1.1 := by
  have hadd : Add f db p = (((Add f db p).1.1, none), (Add f db p).2) := by
    rw [← h]
  intro r hr
  have := number_le_lastKey db hr
  have := (Add_ok hadd).1
  omega

/-- Where the rows after a call come from: each one stems from a row stored
before the call that has the same Number, Client and CreatedAt, or it carries
a key larger than every key in use before the call. -/
theorem run_origin (f : Faults) (c : Call) (db : DB) :
    ∀ r' ∈ (c.run f db).rows,
      (∃ x ∈ db.rows, x.Number = r'.Number ∧ x.Client = r'.Client ∧
        x.CreatedAt = r'.CreatedAt) ∨ db.lastKey < r'.Number := by
  intro r' hr'
  cases c with
  | Add p =>
    rcases Add_rows f db p with h | h
    · simp only [Call.run, h] at hr'
      exact Or.inl ⟨r', hr', rfl, rfl, rfl⟩
    · simp only [Call.run, h, List.mem_append, List.mem_singleton] at hr'
      rcases hr' with hr' | rfl
      · exact Or.inl ⟨r', hr', rfl, rfl, rfl⟩
      · right; simp
  | SetStatus n s =>
    simp only [Call.run, SetStatus, execUpdate] at hr'
    cases hf : f.exec with
    | some e =>
      simp only [hf] at hr'
      exact Or.inl ⟨r', hr', rfl, rfl, rfl⟩
    | none =>
      simp only [hf, List.mem_map] at hr'
      obtain ⟨x, hx, rfl⟩ := hr'
      exact Or.inl ⟨x, hx, by split <;> rfl, by split <;> rfl, by split <;> rfl⟩
  | SetAddress n a =>
    simp only [Call.run, SetAddress, execUpdate] at hr'
    cases hf : f.exec with
    | some e =>
      simp only [hf] at hr'
      exact Or.inl ⟨r', hr', rfl, rfl, rfl⟩
    | none =>
      simp only [hf, List.mem_map] at hr'
      obtain ⟨x, hx, rfl⟩ := hr'
      exact Or.inl ⟨x, hx, by split <;> rfl, by split <;> rfl, by split <;> rfl⟩
  | Delete n =>
    simp only [Call.run, Delete, execDelete] at hr'
    cases hf : f.exec with
    | some e =>
      simp only [hf] at hr'
      exact Or.inl ⟨r', hr', rfl, rfl, rfl⟩
    | none =>
      simp only [hf, List.mem_filter] at hr'
      exact Or.inl ⟨r', hr'.1, rfl, rfl, rfl⟩

/-- Every call keeps the Numbers of the table pairwise distinct. -/
theorem run_unique (f : Faults) (c : Call) (db : DB) (hu : db.UniqueNumbers) :
    (c.run f db).UniqueNumbers := by
  unfold DB.UniqueNumbers at *
  cases c with
  | Add p =>
    rcases Add_rows f db p with h | h
    · simpa only [Call.run, h] using hu
    · simp only [Call.run, h, List.map_append, List.map_cons, List.map_nil]
      rw [List.nodup_append]
      refine ⟨hu, List.nodup_singleton _, ?_⟩
      intro a ha hb
      simp only [List.mem_singleton] at hb
      obtain ⟨x, hx, rfl⟩ := List.mem_map.1 ha
      have := number_le_lastKey db hx
      omega
  | SetStatus n s =>
    simp only [Call.run, SetStatus, execUpdate]
    cases hf : f.exec with
    | some e => simpa using hu
    | none =>
      have : ((db.rows.map fun r =>
          if (r.Number == r.Number) = true then { r with Status := s } else r).map
            Parcel.Number) = db.rows.map Parcel.Number := by
        rw [List.map_map]
        apply List.map_congr_left
        intro x _
        simp
      simpa [this] using hu
  | SetAddress n a =>
    simp only [Call.run, SetAddress, execUpdate]
    cases hf : f.exec with
    | some e => simpa using hu
    | none =>
      have : ((db.rows.map fun r =>
          if (r.Number == n && r.Status == ParcelStatusRegistered) = true then
            { r with Address := a } else r).map Parcel.Number) =
          db.rows.map Parcel.Number := by
        rw [List.map_map]
        apply List.map_congr_left
        intro x _
        simp only [Function.comp]
        split <;> rfl
      simpa only [this] using hu
  | Delete n =>
    simp only [Call.run, Delete, execDelete]
    cases hf : f.exec with
    | some e => simpa using hu
    | none => exact hu.sublist ((List.filter_sublist _).map _)

/-- A sequence of calls keeps the Numbers of the table pairwise distinct. -/
theorem runCalls_unique (calls : List (Faults × Call)) (db : DB) (hu : db.UniqueNumbers) :
    (runCalls db calls).UniqueNumbers := by
  induction calls generalizing db with
  | nil => exact hu
  | cons c calls ih =>
    simp only [runCalls, List.foldl_cons]
    exact ih _ (run_unique c.1 c.2 db hu)

/-- The text built by `fmt.Errorf` around an error is never the error it was
built from. -/
theorem errorf_ne (pre : String) (e : Error) (hpre : 0 < pre.length) :
    Error.errorf (pre ++ e.msg) ≠ e := by
  intro h
  cases e with
  | ErrNoRows => cases h
  | driver m => cases h
  | errorf m =>
    simp only [Error.msg, Error.errorf.injEq] at h
    have := congrArg String.length h
    rw [String.length_append] at this
    omega

/-! ## Claims -/

/-- C1: `Add p` returns no error exactly when neither the insert nor the key
retrieval fails and the engine still has a key to hand out; and whenever
`Add p` returns no error, its key `N` is not zero and `Get N` on the resulting
table succeeds with the record `p` carrying Number `N`, so Client, Status,
Address and CreatedAt are those of `p`, whatever Number the caller supplied. -/
theorem Add_Get_roundtrip (f : Faults) (db : DB) (p : Parcel) :
    ((Add f db p).1.2 = none ↔
        f.exec = none ∧ f.lastInsertId = none ∧ db.lastKey < maxRowid) ∧
      ((Add f db p).1.2 = none →
        (Add f db p).1.1 ≠ 0 ∧
        Get noFaults (Add f db p).2 (Add f db p).1.1 =
          ({ p with Number := (Add f db p).1.1 }, none) ∧
        (Get noFaults (Add f db p).2 (Add f db p).1.1).1.Client = p.Client ∧
        (Get noFaults (Add f db p).2 (Add f db p).1.1).1.Status = p.Status ∧
        (Get noFaults (Add f db p).2 (Add f db p).1.1).1.Address = p.Address ∧
        (Get noFaults (Add f db p).2 (Add f db p).1.1).1.CreatedAt = p.CreatedAt) := by
  constructor
  · unfold Add execInsert
    cases f.exec with
    | some e => simp
    | none =>
      by_cases hfull : maxRowid ≤ db.lastKey
      · simp [hfull]
      · cases f.lastInsertId with
        | some e => simp [hfull]
        | none => simpa [hfull] using lt_of_not_le hfull
  · intro h
    have hadd : Add f db p = (((Add f db p).1.1, none), (Add f db p).2) := by
      rw [← h]
    generalize (Add f db p).1.1 = N at hadd ⊢
    generalize (Add f db p).2 = db' at hadd ⊢
    obtain ⟨hN, hrows⟩ := Add_ok hadd
    have hseq := seq_le_lastKey db
    have hpos : N ≠ 0 := by
      have : (0 : Int) ≤ db.seq := Int.ofNat_nonneg _
      omega
    have hold : db.rows.filter (fun r => r.Number == N) = [] := by
      rw [List.filter_eq_nil_iff]
      intro r hr
      have := number_le_lastKey db hr
      simp only [beq_iff_eq]
      omega
    have hget : Get noFaults db' N = ({ p with Number := N }, none) := by
      rw [Get_noFaults, hrows, List.filter_append, hold]
      simp
    refine ⟨hpos, hget, ?_, ?_, ?_, ?_⟩ <;> rw [hget]

/-- Witness of C1: adding the test parcel to the sample table gives key 3, and
`Get 3` on the new table returns the test parcel under Number 3. -/
theorem Add_Get_roundtrip_witness :
    Add noFaults sampleDB testParcel = ((3, none), sampleDBAdded) ∧
      (Add noFaults sampleDB testParcel).1.1 ≠ 0 ∧
      Get noFaults (Add noFaults sampleDB testParcel).2 (Add noFaults sampleDB testParcel).1.1 =
        ({ testParcel with Number := (Add noFaults sampleDB testParcel).1.1 }, none) :=
  ⟨by decide,
    ((Add_Get_roundtrip noFaults sampleDB testParcel).2 (by decide)).1,
    ((Add_Get_roundtrip noFaults sampleDB testParcel).2 (by decide)).2.1⟩

/-- C7: without a storage failure, `Get n` fails with the no-rows error exactly
when no row has Number `n`; a row with Number `n` is returned as stored, all
five fields, when Numbers are unique; and whenever `Get` fails, under any
faults, the returned parcel is the zero-valued `Parcel`. -/
theorem Get_spec (db : DB) (n : Int) :
    ((Get noFaults db n).2 = some Error.ErrNoRows ↔ ∀ r ∈ db.rows, r.Number ≠ n) ∧
      (∀ r ∈ db.rows, r.Number = n → db.UniqueNumbers → Get noFaults db n = (r, none)) ∧
      (∀ f : Faults, (Get f db n).2 ≠ none → (Get f db n).1 = Parcel.zero) := by
  refine ⟨?_, ?_, ?_⟩
  · rw [Get_noFaults]
    cases hfl : db.rows.filter (fun r => r.Number == n) with
    | nil =>
      simp only [true_iff]
      intro r hr
      have := List.filter_eq_nil_iff.1 hfl r hr
      simpa using this
    | cons a l =>
      have ha : a ∈ db.rows.filter (fun r => r.Number == n) := by simp [hfl]
      rw [List.mem_filter] at ha
      simp only [reduceCtorEq, false_iff, not_forall]
      exact ⟨a, ha.1, by simpa using ha.2⟩
  · intro r hr hn hu
    subst hn
    rw [Get_noFaults, filter_number_of_unique db.rows r hu hr]
  · intro f
    unfold Get
    cases rowScan f (query f db (fun r => r.Number == n)) <;> simp

/-- Witness of C7: in the sample table `Get 5` reports no rows, `Get 2` returns
row 2 as stored, and a failed `Get` returns the zero parcel. -/
theorem Get_spec_witness :
    (Get noFaults sampleDB 5).2 = some Error.ErrNoRows ∧
      Get noFaults sampleDB 2 =
        (⟨2, 2000, "delivered", "home", "2024-01-02T00:00:00Z"⟩, none) ∧
      (Get (execFails (.driver "disk I/O error")) sampleDB 2).1 = Parcel.zero :=
  ⟨(Get_spec sampleDB 5).1.2 (by decide),
    (Get_spec sampleDB 2).2.1 ⟨2, 2000, "delivered", "home", "2024-01-02T00:00:00Z"⟩
      (by decide) rfl (by decide),
    (Get_spec sampleDB 2).2.2 (execFails (.driver "disk I/O error")) (by decide)⟩

/-- C6: without a storage failure, `GetByClient C` returns no error and exactly
the rows of the table whose Client is `C`: the same multiset, each row as
stored, no row of another client; and the empty sequence when no row has
Client `C`. -/
theorem GetByClient_spec (db : DB) (C : Int) :
    (GetByClient noFaults db C).2 = none ∧
      (GetByClient noFaults db C).1.Perm (db.rows.filter (fun r => decide (r.Client = C))) ∧
      (∀ r, r ∈ (GetByClient noFaults db C).1 ↔ r ∈ db.rows ∧ r.Client = C) ∧
      ((∀ r ∈ db.rows, r.Client ≠ C) → (GetByClient noFaults db C).1 = []) := by
  rw [GetByClient_noFaults]
  refine ⟨rfl, ?_, ?_, ?_⟩
  · exact List.Perm.refl _
  · intro r
    simp [List.mem_filter]
  · intro h
    simp only
    rw [List.filter_eq_nil_iff]
    intro r hr
    simpa using h r hr

/-- Witness of C6: no row of the sample table belongs to client 7, and
`GetByClient 7` is empty. -/
theorem GetByClient_spec_witness :
    (∀ r ∈ sampleDB.rows, r.Client ≠ 7) ∧ (GetByClient noFaults sampleDB 7).1 = [] :=
  ⟨by decide, (GetByClient_spec sampleDB 7).2.2.2 (by decide)⟩

/-- C5: for a stored row `r` of a table with unique Numbers, whatever its
status, `SetStatus r.Number s` returns no error and the following
`Get r.Number` succeeds and returns `r` with Status `s`. -/
theorem SetStatus_Get (db : DB) (r : Parcel) (s : String)
    (hu : db.UniqueNumbers) (hr : r ∈ db.rows) :
    (SetStatus noFaults db r.Number s).1 = none ∧
      Get noFaults (SetStatus noFaults db r.Number s).2 r.Number =
        ({ r with Status := s }, none) ∧
      (Get noFaults (SetStatus noFaults db r.Number s).2 r.Number).1.Status = s := by
  have hget : Get noFaults (SetStatus noFaults db r.Number s).2 r.Number =
      ({ r with Status := s }, none) := by
    rw [Get_noFaults]
    simp only [SetStatus, execUpdate, noFaults]
    rw [filter_number_map _ _ (by intro x; split <;> rfl),
      filter_number_of_unique db.rows r hu hr]
    simp
  refine ⟨rfl, hget, ?_⟩
  rw [hget]

/-- Witness of C5: row 2 of the sample table is delivered; after
`SetStatus 2 "sent"` the row read back has Status `sent`. -/
theorem SetStatus_Get_witness :
    (Get noFaults (SetStatus noFaults sampleDB 2 "sent").2 2).1.Status = "sent" :=
  (SetStatus_Get sampleDB ⟨2, 2000, "delivered", "home", "2024-01-02T00:00:00Z"⟩ "sent"
    (by decide) (by decide)).2.2

/-- C4: for a stored row `r` of a table with unique Numbers and any address
`X`, `SetAddress r.Number X` returns no error; the following `Get r.Number`
returns `r` with Address `X` when `r` was `registered`, and returns `r` itself,
so the previous Address, when its status was any other string. -/
theorem SetAddress_Get (db : DB) (r : Parcel) (X : String)
    (hu : db.UniqueNumbers) (hr : r ∈ db.rows) :
    (SetAddress noFaults db r.Number X).1 = none ∧
      (r.Status = ParcelStatusRegistered →
        Get noFaults (SetAddress noFaults db r.Number X).2 r.Number =
          ({ r with Address := X }, none)) ∧
      (r.Status ≠ ParcelStatusRegistered →
        Get noFaults (SetAddress noFaults db r.Number X).2 r.Number = (r, none)) := by
  have hfl : (SetAddress noFaults db r.Number X).2.rows.filter
        (fun x => x.Number == r.Number) =
      [if r.Status = ParcelStatusRegistered then { r with Address := X } else r] := by
    simp only [SetAddress, execUpdate, noFaults]
    rw [filter_number_map _ _ (by intro x; split <;> rfl),
      filter_number_of_unique db.rows r hu hr]
    simp
  refine ⟨rfl, ?_, ?_⟩
  · intro hs
    rw [Get_noFaults, hfl]
    simp [hs]
  · intro hs
    rw [Get_noFaults, hfl]
    simp [hs]

/-- Witness of C4: in the sample table row 1 is registered and gets the new
address, row 2 is delivered and keeps its address `home`. -/
theorem SetAddress_Get_witness :
    Get noFaults (SetAddress noFaults sampleDB 1 "Night City").2 1 =
        (⟨1, 1000, "registered", "Night City", "2024-01-01T00:00:00Z"⟩, none) ∧
      Get noFaults (SetAddress noFaults sampleDB 2 "Night City").2 2 =
        (⟨2, 2000, "delivered", "home", "2024-01-02T00:00:00Z"⟩, none) :=
  ⟨(SetAddress_Get sampleDB ⟨1, 1000, "registered", "test", "2024-01-01T00:00:00Z"⟩
      "Night City" (by decide) (by decide)).2.1 (by decide),
    (SetAddress_Get sampleDB ⟨2, 2000, "delivered", "home", "2024-01-02T00:00:00Z"⟩
      "Night City" (by decide) (by decide)).2.2 (by decide)⟩

/-- C3: for a stored row `r` of a table with unique Numbers, `Delete r.Number`
returns no error; if `r` was `registered`, no row with that Number is left and
`Get r.Number` fails with the no-rows error and the zero parcel; if the status
of `r` was any other string, the table is unchanged, `r` is still stored and
`Get r.Number` returns it. -/
theorem Delete_spec (db : DB) (r : Parcel)
    (hu : db.UniqueNumbers) (hr : r ∈ db.rows) :
    (Delete noFaults db r.Number).1 = none ∧
      (r.Status = ParcelStatusRegistered →
        (∀ x ∈ (Delete noFaults db r.Number).2.rows, x.Number ≠ r.Number) ∧
          Get noFaults (Delete noFaults db r.Number).2 r.Number =
            (Parcel.zero, some Error.ErrNoRows)) ∧
      (r.Status ≠ ParcelStatusRegistered →
        (Delete noFaults db r.Number).2 = db ∧
          r ∈ (Delete noFaults db r.Number).2.rows ∧
          Get noFaults (Delete noFaults db r.Number).2 r.Number = (r, none)) := by
  refine ⟨rfl, ?_, ?_⟩
  · intro hs
    have hnone : ∀ x ∈ (Delete noFaults db r.Number).2.rows, x.Number ≠ r.Number := by
      intro x hx hn
      simp only [Delete, execDelete, noFaults, List.mem_filter] at hx
      have hxr : x = r := eq_of_number_eq hu hx.1 hr hn
      subst hxr
      simp [hs] at hx
    refine ⟨hnone, ?_⟩
    rw [Get_noFaults]
    have : (Delete noFaults db r.Number).2.rows.filter (fun x => x.Number == r.Number) = [] := by
      rw [List.filter_eq_nil_iff]
      intro x hx
      simpa using hnone x hx
    rw [this]
  · intro hs
    have hsame : (Delete noFaults db r.Number).2 = db := by
      simp only [Delete, execDelete, noFaults]
      have : db.rows.filter (fun x =>
          !(x.Number == r.Number && x.Status == ParcelStatusRegistered)) = db.rows := by
        rw [List.filter_eq_self]
        intro x hx
        by_cases hn : x.Number = r.Number
        · have hxr : x = r := eq_of_number_eq hu hx hr hn
          subst hxr
          simp [hs]
        · simp [hn]
      rw [this]
    rw [hsame]
    refine ⟨rfl, hr, ?_⟩
    rw [Get_noFaults, filter_number_of_unique db.rows r hu hr]

/-- Witness of C3: in the sample table row 1 is registered and is deleted, row
2 is delivered and survives `Delete 2`. -/
theorem Delete_spec_witness :
    Get noFaults (Delete noFaults sampleDB 1).2 1 = (Parcel.zero, some Error.ErrNoRows) ∧
      Get noFaults (Delete noFaults sampleDB 2).2 2 =
        (⟨2, 2000, "delivered", "home", "2024-01-02T00:00:00Z"⟩, none) :=
  ⟨((Delete_spec sampleDB ⟨1, 1000, "registered", "test", "2024-01-01T00:00:00Z"⟩
      (by decide) (by decide)).2.1 (by decide)).2,
    ((Delete_spec sampleDB ⟨2, 2000, "delivered", "home", "2024-01-02T00:00:00Z"⟩
      (by decide) (by decide)).2.2 (by decide)).2.2⟩

/-- C8: in every table reached from the empty table by a sequence of `Add`,
`SetStatus`, `SetAddress` and `Delete` calls (failing calls included) no two
rows have the same Number, and the key returned by a successful `Add` on such
a table differs from the Number of every row stored before the call. -/
theorem reachable_unique_numbers (calls : List (Faults × Call)) :
    (runCalls DB.empty calls).UniqueNumbers ∧
      ∀ (f : Faults) (p : Parcel), (Add f (runCalls DB.empty calls) p).1.2 = none →
        ∀ r ∈ (runCalls DB.empty calls).rows,
          r.Number ≠ (Add f (runCalls DB.empty calls) p).1.1 :=
  ⟨runCalls_unique calls DB.empty (by simp [DB.UniqueNumbers, DB.empty]),
    fun f p h => Add_fresh f (runCalls DB.empty calls) p h⟩

/-- Witness of C8: after two `Add`, a `Delete` and a `SetStatus`, one row with
Number 2 is stored, and the next `Add` returns key 3. -/
theorem reachable_unique_numbers_witness :
    (runCalls DB.empty [(noFaults, .Add testParcel), (noFaults, .Add testParcel),
        (noFaults, .Delete 1), (noFaults, .SetStatus 2 "delivered")]).rows =
        [⟨2, 1000, "delivered", "test", "2024-01-01T00:00:00Z"⟩] ∧
      (2 : Int) ≠ (Add noFaults (runCalls DB.empty [(noFaults, .Add testParcel),
        (noFaults, .Add testParcel), (noFaults, .Delete 1),
        (noFaults, .SetStatus 2 "delivered")]) testParcel).1.1 :=
  ⟨by decide,
    (reachable_unique_numbers [(noFaults, .Add testParcel), (noFaults, .Add testParcel),
        (noFaults, .Delete 1), (noFaults, .SetStatus 2 "delivered")]).2 noFaults testParcel
      (by decide) ⟨2, 1000, "delivered", "test", "2024-01-01T00:00:00Z"⟩ (by decide)⟩

/-- C9: for every table with unique Numbers and every call of `Add`,
`SetStatus`, `SetAddress` or `Delete`, under any faults, a row stored after
the call has the Client and the CreatedAt of the row that carried its Number
before the call. -/
theorem client_createdAt_immutable (f : Faults) (c : Call) (db : DB)
    (hu : db.UniqueNumbers) (r r' : Parcel) (hr : r ∈ db.rows)
    (hr' : r' ∈ (c.run f db).rows) (hn : r'.Number = r.Number) :
    r'.Client = r.Client ∧ r'.CreatedAt = r.CreatedAt := by
  rcases run_origin f c db r' hr' with ⟨x, hx, hxn, hxc, hxt⟩ | hfresh
  · have hxr : x = r := eq_of_number_eq hu hx hr (hxn.trans hn)
    subst hxr
    exact ⟨hxc.symm, hxt.symm⟩
  · have := number_le_lastKey db hr
    omega

/-- Witness of C9: `SetStatus 1 "sent"` on the sample table rewrites row 2
into a row that still has Client 2000 and its creation time. -/
theorem client_createdAt_immutable_witness :
    (⟨2, 2000, "sent", "home", "2024-01-02T00:00:00Z"⟩ : Parcel) ∈
        (Call.run noFaults sampleDB (.SetStatus 1 "sent")).rows ∧
      (⟨2, 2000, "sent", "home", "2024-01-02T00:00:00Z"⟩ : Parcel).Client = 2000 ∧
      (⟨2, 2000, "sent", "home", "2024-01-02T00:00:00Z"⟩ : Parcel).CreatedAt =
        "2024-01-02T00:00:00Z" :=
  ⟨by decide,
    client_createdAt_immutable noFaults (.SetStatus 1 "sent") sampleDB (by decide)
      ⟨2, 2000, "delivered", "home", "2024-01-02T00:00:00Z"⟩
      ⟨2, 2000, "sent", "home", "2024-01-02T00:00:00Z"⟩ (by decide) (by decide) rfl⟩

/-- C2 (the code at the failing input): `SetStatus 1 "sent"` on the sample
table also rewrites the status of row 2, and `SetStatus 99 "sent"`, a Number
carried by no row, rewrites both rows. -/
theorem SetStatus_rewrites_other_rows :
    (SetStatus noFaults sampleDB 1 "sent").2.rows =
        [⟨1, 1000, "sent", "test", "2024-01-01T00:00:00Z"⟩,
          ⟨2, 2000, "sent", "home", "2024-01-02T00:00:00Z"⟩] ∧
      (SetStatus noFaults sampleDB 99 "sent").2.rows =
        [⟨1, 1000, "sent", "test", "2024-01-01T00:00:00Z"⟩,
          ⟨2, 2000, "sent", "home", "2024-01-02T00:00:00Z"⟩] := by
  decide

/-- C10 (as stated, refuted): when the insert of `Add` fails with `e`, and
when the query of `Get` fails with `e`, the caller receives `e` itself, with no
message around it. -/
theorem Add_Get_return_raw_error :
    (Add (execFails (.driver "disk I/O error")) sampleDB testParcel).1 =
        (0, some (.driver "disk I/O error")) ∧
      (Get (execFails (.driver "disk I/O error")) sampleDB 1).2 =
        some (.driver "disk I/O error") := by
  decide

/-- C10 (amended): `SetStatus`, `SetAddress` and `Delete` return an error
exactly when the statement fails, and then it is not the failure `e` itself but
a new error whose text is the name of the operation, ` error: ` and the text of
`e`; `GetByClient` turns a failure `e` of its query into a new error whose text
names the operation and the client id before the text of `e`; `Add` and `Get`
hand a failure of their statement back as it is. -/
theorem error_wrapping (f : Faults) (db : DB) (n C : Int) (s : String) (p : Parcel) :
    (SetStatus f db n s).1 =
        f.exec.map (fun e => Error.errorf ("SetStatus error: " ++ e.msg)) ∧
      (SetAddress f db n s).1 =
        f.exec.map (fun e => Error.errorf ("SetAddress error: " ++ e.msg)) ∧
      (Delete f db n).1 =
        f.exec.map (fun e => Error.errorf ("Delete error: " ++ e.msg)) ∧
      (∀ e, f.exec = some e →
        (SetStatus f db n s).1 ≠ some e ∧ (SetAddress f db n s).1 ≠ some e ∧
        (Delete f db n).1 ≠ some e ∧
        (GetByClient f db C).2 = some (Error.errorf
          ("GetByClient: no data with client id " ++ toString C ++ ": " ++ e.msg)) ∧
        (GetByClient f db C).2 ≠ some e ∧
        (Add f db p).1 = (0, some e) ∧
        (Get f db n).2 = some e) := by
  refine ⟨?_, ?_, ?_, ?_⟩
  · unfold SetStatus execUpdate
    cases f.exec <;> rfl
  · unfold SetAddress execUpdate
    cases f.exec <;> rfl
  · unfold Delete execDelete
    cases f.exec <;> rfl
  · intro e he
    have h1 := errorf_ne "SetStatus error: " e (by decide)
    have h2 := errorf_ne "SetAddress error: " e (by decide)
    have h3 := errorf_ne "Delete error: " e (by decide)
    have h4 := errorf_ne ("GetByClient: no data with client id " ++ toString C ++ ": ") e
      (by rw [String.length_append, String.length_append]
          have : 0 < "GetByClient: no data with client id ".length := by decide
          omega)
    refine ⟨?_, ?_, ?_, ?_, ?_, ?_, ?_⟩
    · simpa [SetStatus, execUpdate, he] using h1
    · simpa [SetAddress, execUpdate, he] using h2
    · simpa [Delete, execDelete, he] using h3
    · simp [GetByClient, query, he]
    · simpa [GetByClient, query, he, String.append_assoc] using h4
    · simp [Add, execInsert, he]
    · simp [Get, query, rowScan, he]

/-- Witness of C10 (amended): a `Delete` whose statement fails with
`disk I/O error` returns the error `Delete error: disk I/O error`. -/
theorem error_wrapping_witness :
    (Delete (execFails (.driver "disk I/O error")) sampleDB 1).1 ≠
        some (.driver "disk I/O error") ∧
      (GetByClient (execFails (.driver "disk I/O error")) sampleDB 1000).2 =
        some (Error.errorf ("GetByClient: no data with client id " ++ toString (1000 : Int)
          ++ ": " ++ (Error.driver "disk I/O error").msg)) :=
  ⟨((error_wrapping (execFails (.driver "disk I/O error")) sampleDB 1 1000 "" testParcel).2.2.2
      (.driver "disk I/O error") rfl).2.2.1,
    ((error_wrapping (execFails (.driver "disk I/O error")) sampleDB 1 1000 "" testParcel).2.2.2
      (.driver "disk I/O error") rfl).2.2.2.1⟩

end ParcelStore
